import Mathlib

/-!
Verification of the terminal-emulation core of dioxus-terminal.

The definitions below are a shallow embedding of `src/widget.rs`
(`process_byte`, `process_sgr`, `color_from_256`, `scroll_up`,
`key_to_string`).  The `term` module of the repository (types `Color`,
`Style`, `Cell`, `Grid`) is not present under src/, so those types are
modelled from the spec (sections 3 and 4.4); each such definition is
marked `Modelled from the spec:` in its doc comment.

Machine integers: Rust `u8` values are embedded as `Nat`, with the range
`< 256` carried as a hypothesis where the claim mentions it.  The only
arithmetic performed on `u8` in the source (`55 + v * 40` with `v ≤ 5`,
`8 + (n - 232) * 10` with `n ≤ 255`, `ch - b'a' + 1` with a lowercase
letter) never overflows, so plain `Nat` arithmetic is exact.
-/

namespace DioxusTerminal

/-- Modelled from the spec: the `term` module (file `term.rs`) is not under
src/.  Spec section 3: "Color: an RGB triple, each channel an 8-bit
unsigned value". -/
structure Color where
  r : Nat
  g : Nat
  b : Nat
deriving DecidableEq

/-- Embedding of `Color::new(r, g, b)`. -/
def Color.new (r g b : Nat) : Color := ⟨r, g, b⟩

/-- Modelled from the spec: `Color::default_fg` is named by the spec only as
a semantic constant ("two semantic constants, default_fg and default_bg,
used for reset and as the initial attribute state"); the concrete channel
values are not specified, and no claim depends on them.  The dark-theme
foreground from `theme.rs` is used as a placeholder value. -/
def Color.default_fg : Color := Color.new 204 204 204

/-- Modelled from the spec: `Color::default_bg`, see `Color.default_fg`. -/
def Color.default_bg : Color := Color.new 0 0 0

/-- Modelled from the spec: "Style: a set of independent boolean flags —
bold, dim, italic, underline, strikethrough, inverse". -/
structure Style where
  bold : Bool
  dim : Bool
  italic : Bool
  underline : Bool
  strikethrough : Bool
  inverse : Bool
deriving DecidableEq

/-- Modelled from the spec: "Cell: one grid position — a single display
character, a foreground Color, a background Color, and a Style". -/
structure Cell where
  c : Char
  fg : Color
  bg : Color
  style : Style
deriving DecidableEq

/-- Modelled from the spec: "Default Cell = space character with
default-fg/default-bg and all style flags false". -/
def Cell.default : Cell :=
  { c := ' ', fg := Color.default_fg, bg := Color.default_bg,
    style := { bold := false, dim := false, italic := false,
               underline := false, strikethrough := false, inverse := false } }

/-- Modelled from the spec: "Grid: a row-major matrix of Cell with fixed
rows × cols established at construction".  The matrix is represented as a
total function over coordinates together with the fixed dimensions; the
dimension fields never change, which realises the spec's no-resize
invariant by construction. -/
structure Grid where
  rows : Nat
  cols : Nat
  cells : Nat → Nat → Cell

/-- Modelled from the spec: `Grid::new(rows, cols)` — a blank grid of
default Cells. -/
def Grid.new (rows cols : Nat) : Grid :=
  { rows := rows, cols := cols, cells := fun _ _ => Cell.default }

/-- Modelled from the spec: "get(row, col) returns the Cell or nothing if
out of range". -/
def Grid.get (g : Grid) (row col : Nat) : Option Cell :=
  if row < g.rows ∧ col < g.cols then some (g.cells row col) else none

/-- Modelled from the spec: "set(row, col, cell) writes if in range, else
no-op". -/
def Grid.set (g : Grid) (row col : Nat) (cell : Cell) : Grid :=
  if row < g.rows ∧ col < g.cols then
    { g with cells := fun r c => if r = row ∧ c = col then cell else g.cells r c }
  else g

/-- Embedding of `EscapeState` from widget.rs: escape sequence parsing state. -/
inductive EscapeState where
  | Normal
  | Escape
  | Csi
deriving DecidableEq

/-- Embedding of `TermState` from widget.rs, restricted to the fields the
terminal-emulation core reads and writes (the `pty` handle is the
external transport and carries no emulation state). -/
structure TermState where
  cursor_row : Nat
  cursor_col : Nat
  fg : Color
  bg : Color
  bold : Bool
  dim : Bool
  italic : Bool
  underline : Bool
  escape_state : EscapeState
  escape_buf : List Nat
deriving DecidableEq

/-- The initial session state built in the `use_hook` closure of
`Terminal`: cursor at (0,0), default colors, all flags clear, `Normal`
parser state, empty parameter buffer. -/
def initState : TermState :=
  { cursor_row := 0, cursor_col := 0,
    fg := Color.default_fg, bg := Color.default_bg,
    bold := false, dim := false, italic := false, underline := false,
    escape_state := EscapeState.Normal, escape_buf := [] }

/-- Embedding of `color_from_256` from widget.rs: convert a 256-color palette index to
RGB.  The Rust argument is `u8`; indices above 255 never occur there and
fall into the final branch here. -/
def color_from_256 (n : Nat) : Color :=
  match n with
  | 0 => Color.new 0 0 0
  | 1 => Color.new 205 49 49
  | 2 => Color.new 13 188 121
  | 3 => Color.new 229 229 16
  | 4 => Color.new 36 114 200
  | 5 => Color.new 188 63 188
  | 6 => Color.new 17 168 205
  | 7 => Color.new 229 229 229
  | 8 => Color.new 102 102 102
  | 9 => Color.new 241 76 76
  | 10 => Color.new 35 209 139
  | 11 => Color.new 245 245 67
  | 12 => Color.new 59 142 234
  | 13 => Color.new 214 112 214
  | 14 => Color.new 41 184 219
  | 15 => Color.new 255 255 255
  | m =>
    if m ≤ 231 then
      -- 216-color cube (16-231)
      let k := m - 16
      let r := (k / 36) % 6
      let g := (k / 6) % 6
      let b := k % 6
      let to_255 := fun (v : Nat) => if v = 0 then 0 else 55 + v * 40
      Color.new (to_255 r) (to_255 g) (to_255 b)
    else
      -- Grayscale (232-255)
      let gray := 8 + (m - 232) * 10
      Color.new gray gray gray

/-- The attribute portion of `TermState`: the six fields `process_sgr`
mutates.  Factoring them out makes it explicit that the SGR resolver
touches nothing else. -/
structure SgrAttrs where
  fg : Color
  bg : Color
  bold : Bool
  dim : Bool
  italic : Bool
  underline : Bool
deriving DecidableEq

/-- One simple (non-extended) arm of the `match params[i]` in
`process_sgr`: every code except 38 and 48, which are handled in
`sgrLoop` because they consume extra parameters. -/
def applyCode (a : SgrAttrs) (p : Nat) : SgrAttrs :=
  match p with
  | 0 =>
    { fg := Color.default_fg, bg := Color.default_bg,
      bold := false, dim := false, italic := false, underline := false }
  | 1 => { a with bold := true }
  | 2 => { a with dim := true }
  | 3 => { a with italic := true }
  | 4 => { a with underline := true }
  | 22 => { a with bold := false, dim := false }
  | 23 => { a with italic := false }
  | 24 => { a with underline := false }
  | 30 => { a with fg := Color.new 0 0 0 }
  | 31 => { a with fg := Color.new 205 49 49 }
  | 32 => { a with fg := Color.new 13 188 121 }
  | 33 => { a with fg := Color.new 229 229 16 }
  | 34 => { a with fg := Color.new 36 114 200 }
  | 35 => { a with fg := Color.new 188 63 188 }
  | 36 => { a with fg := Color.new 17 168 205 }
  | 37 => { a with fg := Color.new 229 229 229 }
  | 39 => { a with fg := Color.default_fg }
  | 40 => { a with bg := Color.new 0 0 0 }
  | 41 => { a with bg := Color.new 205 49 49 }
  | 42 => { a with bg := Color.new 13 188 121 }
  | 43 => { a with bg := Color.new 229 229 16 }
  | 44 => { a with bg := Color.new 36 114 200 }
  | 45 => { a with bg := Color.new 188 63 188 }
  | 46 => { a with bg := Color.new 17 168 205 }
  | 47 => { a with bg := Color.new 229 229 229 }
  | 49 => { a with bg := Color.default_bg }
  | 90 => { a with fg := Color.new 102 102 102 }
  | 91 => { a with fg := Color.new 241 76 76 }
  | 92 => { a with fg := Color.new 35 209 139 }
  | 93 => { a with fg := Color.new 245 245 67 }
  | 94 => { a with fg := Color.new 59 142 234 }
  | 95 => { a with fg := Color.new 214 112 214 }
  | 96 => { a with fg := Color.new 41 184 219 }
  | 97 => { a with fg := Color.new 255 255 255 }
  | 100 => { a with bg := Color.new 102 102 102 }
  | 101 => { a with bg := Color.new 241 76 76 }
  | 102 => { a with bg := Color.new 35 209 139 }
  | 103 => { a with bg := Color.new 245 245 67 }
  | 104 => { a with bg := Color.new 59 142 234 }
  | 105 => { a with bg := Color.new 214 112 214 }
  | 106 => { a with bg := Color.new 41 184 219 }
  | 107 => { a with bg := Color.new 255 255 255 }
  | _ => a

/-- The `while i < params.len()` loop of `process_sgr`, written as
recursion over the unprocessed suffix of the parameter list.  The Rust
loop advances `i` by 1 per iteration, and by 2 extra inside the 38/48
arms when `i + 2 < params.len() && params[i + 1] == 5`; that guard is
exactly the pattern `5 :: n :: rest` on the suffix after the code, and
the index jump is exactly recursing on the remainder after the consumed
prefix. -/
def sgrLoop (a : SgrAttrs) : List Nat → SgrAttrs
  | [] => a
  | 38 :: 5 :: n :: rest2 => sgrLoop { a with fg := color_from_256 n } rest2
  | 38 :: rest => sgrLoop a rest
  | 48 :: 5 :: n :: rest2 => sgrLoop { a with bg := color_from_256 n } rest2
  | 48 :: rest => sgrLoop a rest
  | p :: rest => sgrLoop (applyCode a p) rest

/-- Embedding of `s.parse::<u8>()` on the byte slice of a parameter segment, digit
loop: running checked accumulation `acc * 10 + digit`, failing on any
non-digit byte and on overflow past 255 (Rust `checked_mul`/`checked_add`
against `u8::MAX`; since the accumulator only grows, a single `≤ 255`
check per step is equivalent). -/
def parseU8Core : List Nat → Nat → Option Nat
  | [], acc => some acc
  | b :: rest, acc =>
    if 48 ≤ b ∧ b ≤ 57 then
      let acc2 := acc * 10 + (b - 48)
      if acc2 ≤ 255 then parseU8Core rest acc2 else none
    else none

/-- Embedding of `s.parse::<u8>()`: empty input fails; a leading `+` (byte 43) is
stripped but must be followed by at least one digit; a leading `-` fails
for unsigned types, and here it is simply not a digit.  Segments are byte
lists; `String::from_utf8_lossy` is the identity on ASCII bytes and turns
every non-ASCII run into replacement characters, which are not ASCII
digits, so parsing the raw bytes (rejecting any byte outside `0-9`/`+`)
yields the same results as parsing the lossily decoded string. -/
def parseU8 (l : List Nat) : Option Nat :=
  match l with
  | [] => none
  | b :: rest =>
    if b = 43 then (if rest = [] then none else parseU8Core rest 0)
    else parseU8Core (b :: rest) 0

/-- Embedding of `params_str.split(';')` at byte level: `;` is ASCII 0x3B = 59, and
UTF-8 never embeds an ASCII byte inside a multi-byte sequence, so
splitting the raw bytes on 59 produces exactly the byte contents of the
string segments. -/
def splitSemi : List Nat → List (List Nat)
  | [] => [[]]
  | b :: rest =>
    if b = 59 then [] :: splitSemi rest
    else
      match splitSemi rest with
      | seg :: segs => (b :: seg) :: segs
      | [] => [[b]]

/-- The parameter-list pipeline of `process_sgr` for a non-empty buffer:
split on `;`, parse each segment as `u8`, silently drop segments that
fail to parse (`filter_map(|s| s.parse().ok())`). -/
def sgrParsedParams (buf : List Nat) : List Nat :=
  (splitSemi buf).filterMap parseU8

/-- The full parameter extraction of `process_sgr`: an empty parameter
string (equivalently, an empty byte buffer — lossy UTF-8 decoding yields
an empty string exactly for empty input) defaults to `vec![0]`. -/
def parseParams (buf : List Nat) : List Nat :=
  if buf = [] then [0] else sgrParsedParams buf

/-- The attribute fields of a `TermState` as an `SgrAttrs`. -/
def TermState.attrs (st : TermState) : SgrAttrs :=
  { fg := st.fg, bg := st.bg, bold := st.bold, dim := st.dim,
    italic := st.italic, underline := st.underline }

/-- Embedding of `process_sgr` from widget.rs: parse the buffered parameter bytes and
run the SGR loop over them.  Only the six attribute fields change; the
Rust function mutates them in place on `TermState`, embedded here as a
record update from the loop's result. -/
def process_sgr (st : TermState) : TermState :=
  let a := sgrLoop st.attrs (parseParams st.escape_buf)
  { st with fg := a.fg, bg := a.bg, bold := a.bold, dim := a.dim,
            italic := a.italic, underline := a.underline }

/-- Embedding of `u8::is_ascii_alphabetic`. -/
def is_ascii_alphabetic (b : Nat) : Bool :=
  decide ((65 ≤ b ∧ b ≤ 90) ∨ (97 ≤ b ∧ b ≤ 122))

/-- The body of the inner copy loop of `scroll_up`:
`if let Some(cell) = g.get(row, col).cloned() { g.set(row - 1, col, cell) }`. -/
def copyCell (row : Nat) (g : Grid) (col : Nat) : Grid :=
  match g.get row col with
  | some cell => g.set (row - 1) col cell
  | none => g

/-- The inner loop of `scroll_up`: `for col in 0..cols`, copying row
`row` into row `row - 1` (reading each source cell from the grid as
already mutated by earlier iterations, exactly as the Rust loop does). -/
def copyRowUp (g : Grid) (row cols : Nat) : Grid :=
  (List.range cols).foldl (copyCell row) g

/-- The clearing loop of `scroll_up`: `for col in 0..cols`, writing a
default Cell into row `row`. -/
def clearRow (g : Grid) (row cols : Nat) : Grid :=
  (List.range cols).foldl (fun g col => g.set row col Cell.default) g

/-- Embedding of `scroll_up` from widget.rs: `for row in 1..rows` move every row up by
one, then clear the last row. -/
def scroll_up (g : Grid) (rows cols : Nat) : Grid :=
  let g1 := (List.range' 1 (rows - 1)).foldl (fun g row => copyRowUp g row cols) g
  clearRow g1 (rows - 1) cols

/-- Embedding of `process_byte` from widget.rs: process a single byte of terminal
output.  Bytes are `Nat`; every branch condition matches the Rust
pattern ranges literally (`0x1b`, `\n` = 10, `\r` = 13, `0x08`, `\t` = 9,
`0x07`, printable `0x20..=0x7e | 0x80..=0xff`, catch-all ignore). -/
def process_byte (st : TermState) (g : Grid) (byte : Nat) (rows cols : Nat) :
    TermState × Grid :=
  match st.escape_state with
  | EscapeState.Normal =>
    if byte = 27 then
      ({ st with escape_state := EscapeState.Escape, escape_buf := [] }, g)
    else if byte = 10 then
      let row := st.cursor_row + 1
      if row ≥ rows then
        ({ st with cursor_row := rows - 1 }, scroll_up g rows cols)
      else
        ({ st with cursor_row := row }, g)
    else if byte = 13 then
      ({ st with cursor_col := 0 }, g)
    else if byte = 8 then
      (if st.cursor_col > 0 then { st with cursor_col := st.cursor_col - 1 } else st, g)
    else if byte = 9 then
      let next_tab := (st.cursor_col / 8 + 1) * 8
      ({ st with cursor_col := min next_tab (cols - 1) }, g)
    else if byte = 7 then
      (st, g)
    else if (32 ≤ byte ∧ byte ≤ 126) ∨ (128 ≤ byte ∧ byte ≤ 255) then
      let cell : Cell :=
        { c := Char.ofNat byte, fg := st.fg, bg := st.bg,
          style := { bold := st.bold, dim := st.dim, italic := st.italic,
                     underline := st.underline, strikethrough := false,
                     inverse := false } }
      let g2 := g.set st.cursor_row st.cursor_col cell
      let col := st.cursor_col + 1
      if col ≥ cols then
        let row := st.cursor_row + 1
        if row ≥ rows then
          ({ st with cursor_col := 0, cursor_row := rows - 1 }, scroll_up g2 rows cols)
        else
          ({ st with cursor_col := 0, cursor_row := row }, g2)
      else
        ({ st with cursor_col := col }, g2)
    else
      (st, g)
  | EscapeState.Escape =>
    if byte = 91 then
      ({ st with escape_state := EscapeState.Csi }, g)
    else
      ({ st with escape_state := EscapeState.Normal }, g)
  | EscapeState.Csi =>
    if is_ascii_alphabetic byte then
      let st2 := if byte = 109 then process_sgr st else st
      ({ st2 with escape_state := EscapeState.Normal, escape_buf := [] }, g)
    else
      ({ st with escape_buf := st.escape_buf ++ [byte] }, g)

/-- The byte-processing loop of the PTY-reading coroutine:
`for byte in bytes { process_byte(...) }`. -/
def processBytes (st : TermState) (g : Grid) (bytes : List Nat) (rows cols : Nat) :
    TermState × Grid :=
  bytes.foldl (fun p b => process_byte p.1 p.2 b rows cols) (st, g)

/-- The `Key` values distinguished by `key_to_string`.  `Other` stands
for every further variant of the external keyboard-event enum, all of
which fall into the `_ => String::new()` arm. -/
inductive Key where
  | Enter
  | Backspace
  | Tab
  | Escape
  | ArrowUp
  | ArrowDown
  | ArrowRight
  | ArrowLeft
  | Home
  | End
  | Delete
  | Character (s : String)
  | Other
deriving DecidableEq

/-- Embedding of `key_to_string` from widget.rs; `ctrl` is `evt.modifiers().ctrl()`.
`c.len()` is the UTF-8 byte length of the string, `c.chars().next()` its
first character, and `is_ascii_lowercase` the range check
`97 ≤ ch ≤ 122`. -/
def key_to_string (key : Key) (ctrl : Bool) : String :=
  match key with
  | Key.Enter => "\r"
  | Key.Backspace => "\x7f"
  | Key.Tab => "\t"
  | Key.Escape => "\x1b"
  | Key.ArrowUp => "\x1b[A"
  | Key.ArrowDown => "\x1b[B"
  | Key.ArrowRight => "\x1b[C"
  | Key.ArrowLeft => "\x1b[D"
  | Key.Home => "\x1b[H"
  | Key.End => "\x1b[F"
  | Key.Delete => "\x1b[3~"
  | Key.Character c =>
    if ctrl ∧ c.utf8ByteSize = 1 then
      match c.data with
      | ch :: _ =>
        if 97 ≤ ch.toNat ∧ ch.toNat ≤ 122 then
          String.mk [Char.ofNat (ch.toNat - 97 + 1)]
        else c
      | [] => c
    else c
  | Key.Other => ""

end DioxusTerminal

namespace DioxusTerminal

/-! ## Claim C3: the 256-color palette resolution -/

set_option maxRecDepth 4000

/-- Claim C3: for every index below 256, `color_from_256` realises the
6×6×6 color cube on 16–231 (channel value `v` maps to 0 if `v = 0` else
`55 + 40·v`), the grayscale ramp `8 + 10·(n - 232)` on 232–255, and the
five quoted test vectors. -/
theorem color_from_256_spec :
    (∀ n : Nat, n < 256 → 16 ≤ n → n ≤ 231 →
      color_from_256 n =
        Color.new
          (if (n - 16) / 36 % 6 = 0 then 0 else 55 + 40 * ((n - 16) / 36 % 6))
          (if (n - 16) / 6 % 6 = 0 then 0 else 55 + 40 * ((n - 16) / 6 % 6))
          (if (n - 16) % 6 = 0 then 0 else 55 + 40 * ((n - 16) % 6))) ∧
    (∀ n : Nat, n < 256 → 232 ≤ n →
      color_from_256 n =
        Color.new (8 + 10 * (n - 232)) (8 + 10 * (n - 232)) (8 + 10 * (n - 232))) ∧
    color_from_256 1 = Color.new 205 49 49 ∧
    color_from_256 16 = Color.new 0 0 0 ∧
    color_from_256 231 = Color.new 255 255 255 ∧
    color_from_256 232 = Color.new 8 8 8 ∧
    color_from_256 255 = Color.new 238 238 238 := by
  refine ⟨by decide, by decide, by decide, by decide, by decide, by decide, by decide⟩

/-- Witness for C3: the theorem applied at the concrete index 100
(cube coordinates r = 2, g = 2, b = 0). -/
theorem color_from_256_spec_witness :
    color_from_256 100 = Color.new 135 135 0 := by
  have h := (color_from_256_spec.1) 100 (by decide) (by decide) (by decide)
  simpa using h

/-! ## Claim C9: SGR reset is idempotent -/

/-- Applying the resolver to the parameter bytes "0" resets the six
attribute fields to the fixed default record, from any starting state. -/
theorem sgr_reset_attrs (st : TermState) :
    (process_sgr { st with escape_buf := [48] }).attrs =
      { fg := Color.default_fg, bg := Color.default_bg,
        bold := false, dim := false, italic := false, underline := false } := rfl

/-- Claim C9: applying the SGR resolver with parameter bytes "0"
(byte 48) twice in a row yields the same attribute state as applying it
once, from any starting state. -/
theorem sgr_reset_idempotent (st : TermState) :
    (process_sgr { process_sgr { st with escape_buf := [48] }
                     with escape_buf := [48] }).attrs
      = (process_sgr { st with escape_buf := [48] }).attrs := by
  rw [sgr_reset_attrs, sgr_reset_attrs]

/-! ## Claim C5: empty parameter lists -/

/-- Claim C5 counterexample: the buffer ";" (byte 59) parses to the empty
parameter list, yet `process_sgr` performs no reset — `bold` stays set,
where the claim requires it cleared.  The `vec![0]` default in the code
tests the parameter *string* for emptiness, not the parsed list. -/
theorem sgr_semicolon_no_reset :
    sgrParsedParams [59] = [] ∧
    (process_sgr { initState with bold := true, escape_buf := [59] }).bold = true :=
  ⟨rfl, rfl⟩

/-- Claim C5 (amended): an empty parameter byte string is treated as the
single parameter 0 and resets fg/bg and the four flags; a non-empty
string whose segments all fail to parse yields an empty parameter list
and leaves the attribute state unchanged. -/
theorem sgr_empty_params (st : TermState) :
    (st.escape_buf = [] →
      (process_sgr st).attrs =
        { fg := Color.default_fg, bg := Color.default_bg,
          bold := false, dim := false, italic := false, underline := false }) ∧
    (st.escape_buf ≠ [] → sgrParsedParams st.escape_buf = [] →
      (process_sgr st).attrs = st.attrs) := by
  constructor
  · intro h
    unfold process_sgr parseParams
    rw [h]
    rfl
  · intro h1 h2
    unfold process_sgr parseParams
    rw [if_neg h1, h2]
    rfl

/-- Witness for C5: the amended theorem applied at a state with an empty
buffer and at a state with buffer ";;" (all of whose segments fail to
parse). -/
theorem sgr_empty_params_witness :
    (process_sgr { initState with bold := true }).attrs =
      { fg := Color.default_fg, bg := Color.default_bg,
        bold := false, dim := false, italic := false, underline := false } ∧
    (process_sgr { initState with italic := true, escape_buf := [59, 59] }).attrs =
      ({ initState with italic := true, escape_buf := [59, 59] } : TermState).attrs :=
  ⟨(sgr_empty_params _).1 rfl,
   (sgr_empty_params _).2 (by decide) (by decide)⟩


/-! ## Claim C10: SGR parameters are parsed as u8 -/

/-- The checked accumulator never yields a value above 255 (each step is
guarded; the start value is passed in below the bound). -/
theorem parseU8Core_le (l : List Nat) :
    ∀ acc v, acc ≤ 255 → parseU8Core l acc = some v → v ≤ 255 := by
  induction l with
  | nil =>
    intro acc v h hv
    unfold parseU8Core at hv
    cases hv
    exact h
  | cons b rest ih =>
    intro acc v h hv
    unfold parseU8Core at hv
    by_cases hb : 48 ≤ b ∧ b ≤ 57
    · rw [if_pos hb] at hv
      by_cases ha : acc * 10 + (b - 48) ≤ 255
      · rw [if_pos ha] at hv
        exact ih _ v ha hv
      · rw [if_neg ha] at hv
        cases hv
    · rw [if_neg hb] at hv
      cases hv

/-- If every byte is an ASCII digit but the denoted value overflows 255,
the checked accumulation fails. -/
theorem parseU8Core_overflow (l : List Nat) :
    ∀ acc, (∀ b ∈ l, 48 ≤ b ∧ b ≤ 57) → acc ≤ 255 →
      255 < l.foldl (fun acc b => acc * 10 + (b - 48)) acc →
      parseU8Core l acc = none := by
  induction l with
  | nil =>
    intro acc _ hle hgt
    simp only [List.foldl_nil] at hgt
    omega
  | cons b rest ih =>
    intro acc hd hle hgt
    have hb : 48 ≤ b ∧ b ≤ 57 := hd b (List.mem_cons_self b rest)
    unfold parseU8Core
    rw [if_pos hb]
    by_cases ha : acc * 10 + (b - 48) ≤ 255
    · rw [if_pos ha]
      exact ih _ (fun x hx => hd x (List.mem_cons_of_mem b hx)) ha hgt
    · rw [if_neg ha]

/-- Claim C10: SGR parameter segments are parsed as 8-bit unsigned
integers — a successful parse is always at most 255, an all-digit
segment denoting a value above 255 fails to parse, the byte string
"38;5;256" yields the parameter list [38, 5], and processing that buffer
leaves the attribute state unchanged. -/
theorem sgr_params_u8 :
    (∀ seg v, parseU8 seg = some v → v ≤ 255) ∧
    (∀ seg, (∀ b ∈ seg, 48 ≤ b ∧ b ≤ 57) →
      255 < seg.foldl (fun acc b => acc * 10 + (b - 48)) 0 →
      parseU8 seg = none) ∧
    sgrParsedParams [51, 56, 59, 53, 59, 50, 53, 54] = [38, 5] ∧
    (∀ st : TermState, st.escape_buf = [51, 56, 59, 53, 59, 50, 53, 54] →
      (process_sgr st).attrs = st.attrs) := by
  refine ⟨?_, ?_, rfl, ?_⟩
  · intro seg v hv
    match seg with
    | [] => exact Option.noConfusion hv
    | b :: rest =>
      have hv2 : (if b = 43 then (if rest = [] then none else parseU8Core rest 0)
          else parseU8Core (b :: rest) 0) = some v := hv
      by_cases hb : b = 43
      · rw [if_pos hb] at hv2
        by_cases hr : rest = []
        · rw [if_pos hr] at hv2
          cases hv2
        · rw [if_neg hr] at hv2
          exact parseU8Core_le rest 0 v (by omega) hv2
      · rw [if_neg hb] at hv2
        exact parseU8Core_le (b :: rest) 0 v (by omega) hv2
  · intro seg hd hgt
    match seg with
    | [] =>
      simp only [List.foldl_nil] at hgt
      omega
    | b :: rest =>
      have hb : 48 ≤ b ∧ b ≤ 57 := hd b (List.mem_cons_self b rest)
      show (if b = 43 then (if rest = [] then none else parseU8Core rest 0)
          else parseU8Core (b :: rest) 0) = none
      rw [if_neg (by omega : ¬ b = 43)]
      exact parseU8Core_overflow (b :: rest) 0 hd (by omega) hgt
  · intro st h
    unfold process_sgr parseParams
    rw [h]
    rfl

/-- Witness for C10: "256" (bytes 50 53 54) fails to parse, and "255"
(bytes 50 53 53) parses to a value bounded by 255. -/
theorem sgr_params_u8_witness :
    parseU8 [50, 53, 54] = none ∧ (255 : Nat) ≤ 255 :=
  ⟨sgr_params_u8.2.1 [50, 53, 54] (by decide) (by decide),
   sgr_params_u8.1 [50, 53, 53] 255 (by decide)⟩

/-! ## Claim C6: extended color codes 38/48 -/

/-- Claim C6: an SGR code 38 (resp. 48) sets the foreground
(resp. background) from the 256-color palette and consumes the two
following parameters exactly when the next parameter is 5 and a third
parameter is present; in every other case the code is skipped with no
parameter consumed and the attribute state unchanged. -/
theorem sgr_extended_color :
    (∀ (a : SgrAttrs) (n : Nat) (rest : List Nat),
      sgrLoop a (38 :: 5 :: n :: rest) = sgrLoop { a with fg := color_from_256 n } rest) ∧
    (∀ (a : SgrAttrs) (rest : List Nat), (∀ (n : Nat) (r2 : List Nat), rest ≠ 5 :: n :: r2) →
      sgrLoop a (38 :: rest) = sgrLoop a rest) ∧
    (∀ (a : SgrAttrs) (n : Nat) (rest : List Nat),
      sgrLoop a (48 :: 5 :: n :: rest) = sgrLoop { a with bg := color_from_256 n } rest) ∧
    (∀ (a : SgrAttrs) (rest : List Nat), (∀ (n : Nat) (r2 : List Nat), rest ≠ 5 :: n :: r2) →
      sgrLoop a (48 :: rest) = sgrLoop a rest) := by
  refine ⟨fun a n rest => rfl, ?_, fun a n rest => rfl, ?_⟩
  · intro a rest h
    exact sgrLoop.eq_3 a rest (fun n rest2 heq => h n rest2 heq)
  · intro a rest h
    exact sgrLoop.eq_5 a rest (fun n rest2 heq => h n rest2 heq)

/-- Witness for C6: a truncated `38;5` sequence (no third parameter) is
skipped without consuming the 5, leaving the attributes unchanged. -/
theorem sgr_extended_color_witness :
    sgrLoop initState.attrs [38, 5] = initState.attrs :=
  (sgr_extended_color.2.1 initState.attrs [5]
    (fun n r2 h => by injection h with h1 h2; exact absurd h2 (by simp))).trans rfl

/-! ## Claim C7: the keyboard-to-bytes mapping -/

/-- Claim C7 counterexample: a plain character key without the control
modifier is not silent — `key_to_string` returns the character's own
string, while the claim requires the empty string for every key outside
its enumerated list. -/
theorem key_character_not_silent :
    key_to_string (Key.Character "a") false = "a" ∧ ("a" : String) ≠ "" :=
  ⟨rfl, by decide⟩

/-- Claim C7 (amended): the fixed keys map exactly as listed; a character
key with the control modifier held whose string is a single lowercase
ASCII letter maps to the control code `letter - 97 + 1`; every other
character key produces its own string; every remaining key produces the
empty string. -/
theorem key_to_string_spec :
    (∀ ctrl, key_to_string Key.Enter ctrl = "\r") ∧
    (∀ ctrl, key_to_string Key.Backspace ctrl = "\x7f") ∧
    (∀ ctrl, key_to_string Key.Tab ctrl = "\t") ∧
    (∀ ctrl, key_to_string Key.Escape ctrl = "\x1b") ∧
    (∀ ctrl, key_to_string Key.ArrowUp ctrl = "\x1b[A") ∧
    (∀ ctrl, key_to_string Key.ArrowDown ctrl = "\x1b[B") ∧
    (∀ ctrl, key_to_string Key.ArrowRight ctrl = "\x1b[C") ∧
    (∀ ctrl, key_to_string Key.ArrowLeft ctrl = "\x1b[D") ∧
    (∀ ctrl, key_to_string Key.Home ctrl = "\x1b[H") ∧
    (∀ ctrl, key_to_string Key.End ctrl = "\x1b[F") ∧
    (∀ ctrl, key_to_string Key.Delete ctrl = "\x1b[3~") ∧
    (∀ n : Nat, n < 123 → 97 ≤ n →
      key_to_string (Key.Character (String.mk [Char.ofNat n])) true
        = String.mk [Char.ofNat (n - 97 + 1)]) ∧
    (∀ s, key_to_string (Key.Character s) false = s) ∧
    (∀ n : Nat, n < 256 → (n < 97 ∨ 122 < n) →
      key_to_string (Key.Character (String.mk [Char.ofNat n])) true
        = String.mk [Char.ofNat n]) ∧
    (∀ s, s.utf8ByteSize ≠ 1 → key_to_string (Key.Character s) true = s) ∧
    (∀ ctrl, key_to_string Key.Other ctrl = "") := by
  refine ⟨fun _ => rfl, fun _ => rfl, fun _ => rfl, fun _ => rfl, fun _ => rfl,
    fun _ => rfl, fun _ => rfl, fun _ => rfl, fun _ => rfl, fun _ => rfl, fun _ => rfl,
    by decide, fun s => rfl, by decide, ?_, fun _ => rfl⟩
  intro s h
  show (if (true : Bool) ∧ s.utf8ByteSize = 1 then _ else s) = s
  rw [if_neg]
  intro hand
  exact h hand.2

/-- Witness for C7: the amended theorem applied at the lowercase letter
'z' (byte 122) with the control modifier held, yielding control code
26. -/
theorem key_to_string_spec_witness :
    key_to_string (Key.Character (String.mk [Char.ofNat 122])) true
      = String.mk [Char.ofNat 26] := by
  have h := (key_to_string_spec.2.2.2.2.2.2.2.2.2.2.2.1) 122 (by decide) (by decide)
  simpa using h

/-! ## Claim C8: totality and silent degradation of the parser -/

/-- Claim C8: `process_byte` is total — every state/byte pair produces a
result; an ESC followed by anything other than a left bracket silently
returns the parser to `Normal` with the grid, cursor, and attributes
untouched; any alphabetic CSI terminator returns the parser to `Normal`
with an empty parameter buffer; and parameter segments that fail to
parse are silently dropped from the parameter list. -/
theorem process_byte_total :
    (∀ st g b rows cols, b < 256 →
      ∃ st2 g2, process_byte st g b rows cols = (st2, g2)) ∧
    (∀ st g b rows cols, st.escape_state = EscapeState.Escape → b ≠ 91 →
      (process_byte st g b rows cols).1.escape_state = EscapeState.Normal ∧
      (process_byte st g b rows cols).1.cursor_row = st.cursor_row ∧
      (process_byte st g b rows cols).1.cursor_col = st.cursor_col ∧
      (process_byte st g b rows cols).1.attrs = st.attrs ∧
      (process_byte st g b rows cols).2 = g) ∧
    (∀ st g b rows cols, st.escape_state = EscapeState.Csi →
      is_ascii_alphabetic b = true →
      (process_byte st g b rows cols).1.escape_state = EscapeState.Normal ∧
      (process_byte st g b rows cols).1.escape_buf = [] ∧
      (process_byte st g b rows cols).2 = g) ∧
    (∀ (pre post : List (List Nat)) (seg : List Nat), parseU8 seg = none →
      (pre ++ seg :: post).filterMap parseU8 = (pre ++ post).filterMap parseU8) := by
  refine ⟨?_, ?_, ?_, ?_⟩
  · intro st g b rows cols _
    exact ⟨(process_byte st g b rows cols).1, (process_byte st g b rows cols).2, rfl⟩
  · intro st g b rows cols hes hb
    unfold process_byte
    rw [hes]
    rw [if_neg hb]
    exact ⟨rfl, rfl, rfl, rfl, rfl⟩
  · intro st g b rows cols hes hab
    unfold process_byte
    rw [hes]
    rw [if_pos hab]
    exact ⟨rfl, rfl, rfl⟩
  · intro pre post seg hseg
    simp [List.filterMap_append, List.filterMap_cons, hseg]

/-- Witness for C8: the theorem's branches applied at byte 120 ('x')
after a lone ESC, and at terminator 'z' in CSI state. -/
theorem process_byte_total_witness :
    (process_byte { initState with escape_state := EscapeState.Escape }
        (Grid.new 3 3) 120 3 3).1.escape_state = EscapeState.Normal ∧
    (process_byte { initState with escape_state := EscapeState.Csi, escape_buf := [51] }
        (Grid.new 3 3) 122 3 3).1.escape_buf = [] :=
  ⟨(process_byte_total.2.1 _ (Grid.new 3 3) 120 3 3 rfl (by decide)).1,
   (process_byte_total.2.2.1 _ (Grid.new 3 3) 122 3 3 rfl (by decide)).2.1⟩

/-! ## Claim C1: the cursor stays in bounds -/

/-- A single `process_byte` call preserves the cursor bounds, for any
byte and any grid, whenever the terminal has at least one row and one
column. -/
theorem process_byte_cursor_lt (st : TermState) (g : Grid) (b rows cols : Nat)
    (hr : 1 ≤ rows) (hc : 1 ≤ cols)
    (h1 : st.cursor_row < rows) (h2 : st.cursor_col < cols) :
    (process_byte st g b rows cols).1.cursor_row < rows ∧
    (process_byte st g b rows cols).1.cursor_col < cols := by
  obtain ⟨cr, cc, fg, bg, bo, di, it, un, es, buf⟩ := st
  simp only [TermState.mk.injEq] at h1 h2 ⊢
  unfold process_byte
  cases es <;> simp only []
  case Normal =>
    split_ifs <;> simp_all <;> omega
  case Escape =>
    split_ifs <;> exact ⟨h1, h2⟩
  case Csi =>
    split_ifs <;> exact ⟨h1, h2⟩

/-- The fold `processBytes` preserves the cursor bounds along the whole fold. -/
theorem processBytes_cursor_lt (l : List Nat) :
    ∀ (st : TermState) (g : Grid) (rows cols : Nat), 1 ≤ rows → 1 ≤ cols →
      st.cursor_row < rows → st.cursor_col < cols →
      (processBytes st g l rows cols).1.cursor_row < rows ∧
      (processBytes st g l rows cols).1.cursor_col < cols := by
  induction l with
  | nil => intro st g rows cols _ _ h1 h2; exact ⟨h1, h2⟩
  | cons b rest ih =>
    intro st g rows cols hr hc h1 h2
    have hstep := process_byte_cursor_lt st g b rows cols hr hc h1 h2
    have hred : processBytes st g (b :: rest) rows cols
        = processBytes (process_byte st g b rows cols).1
            (process_byte st g b rows cols).2 rest rows cols := rfl
    rw [hred]
    exact ih _ _ rows cols hr hc hstep.1 hstep.2

/-- Claim C1: processing any prefix of any byte sequence from the initial
state leaves the cursor with `cursor_row < rows` and `cursor_col < cols`
(so the bound holds after every single `process_byte` call), for every
grid and every geometry with at least one row and one column. -/
theorem cursor_in_bounds (bytes pre : List Nat) (rows cols : Nat) (g : Grid)
    (hr : 1 ≤ rows) (hc : 1 ≤ cols)
    (hbytes : ∀ b ∈ bytes, b < 256) (hpre : pre <+: bytes) :
    (processBytes initState g pre rows cols).1.cursor_row < rows ∧
    (processBytes initState g pre rows cols).1.cursor_col < cols :=
  processBytes_cursor_lt pre initState g rows cols hr hc
    (by simpa [initState] using hr) (by simpa [initState] using hc)

/-- Witness for C1: the bound after processing the prefix "A«newline»" of
"A«newline»«carriage return»" on a 2×2 grid. -/
theorem cursor_in_bounds_witness :
    (processBytes initState (Grid.new 2 2) [65, 10] 2 2).1.cursor_row < 2 ∧
    (processBytes initState (Grid.new 2 2) [65, 10] 2 2).1.cursor_col < 2 :=
  cursor_in_bounds [65, 10, 13] [65, 10] 2 2 (Grid.new 2 2)
    (by decide) (by decide) (by decide) ⟨[13], rfl⟩

/-! ## Claim C2: end-to-end red letter A -/

/-- The first five bytes of the sequence (ESC, left bracket, '3', '1',
'm') only change the parser and attribute state: they set the foreground
to the standard red and leave the grid untouched. -/
theorem red_prefix_eval (g : Grid) (rows cols : Nat) :
    processBytes initState g [27, 91, 51, 49, 109] rows cols
      = ({ initState with fg := Color.new 205 49 49 }, g) := rfl

/-- Claim C2: feeding ESC [ 3 1 m A byte-by-byte into a fresh state and a
blank grid leaves cell (0,0) holding 'A' with foreground (205,49,49) and
the default background, and the cursor at row 0, column 1 (for any
geometry with at least one row and at least two columns). -/
theorem end_to_end_red_A (rows cols : Nat) (hr : 1 ≤ rows) (hc : 2 ≤ cols) :
    (processBytes initState (Grid.new rows cols) [27, 91, 51, 49, 109, 65] rows cols).2.get 0 0
      = some { c := 'A', fg := Color.new 205 49 49, bg := Color.default_bg,
               style := { bold := false, dim := false, italic := false,
                          underline := false, strikethrough := false,
                          inverse := false } } ∧
    (processBytes initState (Grid.new rows cols) [27, 91, 51, 49, 109, 65] rows cols).1.cursor_col = 1 ∧
    (processBytes initState (Grid.new rows cols) [27, 91, 51, 49, 109, 65] rows cols).1.cursor_row = 0 := by
  have h6 : processBytes initState (Grid.new rows cols) [27, 91, 51, 49, 109, 65] rows cols
      = process_byte { initState with fg := Color.new 205 49 49 }
          (Grid.new rows cols) 65 rows cols := rfl
  rw [h6]
  unfold process_byte
  simp only [initState]
  rw [if_neg (by decide), if_neg (by decide), if_neg (by decide), if_neg (by decide),
      if_neg (by decide), if_neg (by decide), if_pos (by decide)]
  rw [if_neg (by omega : ¬ 0 + 1 ≥ cols)]
  refine ⟨?_, rfl, rfl⟩
  unfold Grid.set Grid.get Grid.new
  rw [if_pos (⟨by omega, by omega⟩ : (0 : Nat) < rows ∧ (0 : Nat) < cols)]
  simp only []
  rw [if_pos (⟨by omega, by omega⟩ : (0 : Nat) < rows ∧ (0 : Nat) < cols)]
  rfl

/-- Witness for C2: the theorem applied at the default 24×120 geometry of
the widget. -/
theorem end_to_end_red_A_witness :
    (processBytes initState (Grid.new 24 120) [27, 91, 51, 49, 109, 65] 24 120).2.get 0 0
      = some { c := 'A', fg := Color.new 205 49 49, bg := Color.default_bg,
               style := { bold := false, dim := false, italic := false,
                          underline := false, strikethrough := false,
                          inverse := false } } ∧
    (processBytes initState (Grid.new 24 120) [27, 91, 51, 49, 109, 65] 24 120).1.cursor_col = 1 ∧
    (processBytes initState (Grid.new 24 120) [27, 91, 51, 49, 109, 65] 24 120).1.cursor_row = 0 :=
  end_to_end_red_A 24 120 (by decide) (by decide)

/-! ## Claim C4: scrolling on newline at the last row -/

theorem Grid.rows_set (g : Grid) (r c : Nat) (cell : Cell) :
    (g.set r c cell).rows = g.rows := by
  unfold Grid.set
  split <;> rfl

theorem Grid.cols_set (g : Grid) (r c : Nat) (cell : Cell) :
    (g.set r c cell).cols = g.cols := by
  unfold Grid.set
  split <;> rfl

theorem Grid.get_set (g : Grid) (r c : Nat) (cell : Cell) (r2 c2 : Nat) :
    (g.set r c cell).get r2 c2 =
      if r2 = r ∧ c2 = c ∧ r < g.rows ∧ c < g.cols then some cell
      else g.get r2 c2 := by
  unfold Grid.set Grid.get
  split_ifs <;> simp_all

theorem copyCell_rows (row : Nat) (g : Grid) (col : Nat) :
    (copyCell row g col).rows = g.rows := by
  unfold copyCell
  cases g.get row col <;> simp [Grid.rows_set]

theorem copyCell_cols (row : Nat) (g : Grid) (col : Nat) :
    (copyCell row g col).cols = g.cols := by
  unfold copyCell
  cases g.get row col <;> simp [Grid.cols_set]

theorem copyCell_get (row : Nat) (g : Grid) (col : Nat) (hrow : 1 ≤ row) (r2 c2 : Nat) :
    (copyCell row g col).get r2 c2 =
      if r2 = row - 1 ∧ c2 = col ∧ row < g.rows ∧ col < g.cols then g.get row col
      else g.get r2 c2 := by
  unfold copyCell
  by_cases h : row < g.rows ∧ col < g.cols
  · have hg : g.get row col = some (g.cells row col) := by
      unfold Grid.get
      rw [if_pos h]
    rw [hg]
    show (g.set (row - 1) col (g.cells row col)).get r2 c2 =
      if r2 = row - 1 ∧ c2 = col ∧ row < g.rows ∧ col < g.cols
      then some (g.cells row col) else g.get r2 c2
    rw [Grid.get_set]
    split_ifs <;> simp_all <;> omega
  · have hg : g.get row col = none := by
      unfold Grid.get
      rw [if_neg h]
    rw [hg]
    show g.get r2 c2 = _
    rw [if_neg (by tauto)]

theorem copyRowUp_aux (l : List Nat) :
    ∀ (g : Grid) (row : Nat), 1 ≤ row →
      (l.foldl (copyCell row) g).rows = g.rows ∧
      (l.foldl (copyCell row) g).cols = g.cols ∧
      ∀ r2 c2, (l.foldl (copyCell row) g).get r2 c2 =
        if r2 = row - 1 ∧ c2 ∈ l ∧ row < g.rows ∧ c2 < g.cols then g.get row c2
        else g.get r2 c2 := by
  induction l with
  | nil =>
    intro g row _
    refine ⟨rfl, rfl, ?_⟩
    intro r2 c2
    rw [if_neg (by simp)]
    rfl
  | cons a t ih =>
    intro g row hrow
    obtain ⟨iha, ihb, ihc⟩ := ih (copyCell row g a) row hrow
    rw [List.foldl_cons]
    refine ⟨by rw [iha, copyCell_rows], by rw [ihb, copyCell_cols], ?_⟩
    intro r2 c2
    have hread : (copyCell row g a).get row c2 = g.get row c2 := by
      rw [copyCell_get row g a hrow row c2, if_neg (by omega)]
    have hr2 : (copyCell row g a).get r2 c2 =
        if r2 = row - 1 ∧ c2 = a ∧ row < g.rows ∧ a < g.cols then g.get row a
        else g.get r2 c2 := copyCell_get row g a hrow r2 c2
    rw [ihc r2 c2, copyCell_rows, copyCell_cols, hread, hr2]
    by_cases hc3 : r2 = row - 1 ∧ c2 ∈ a :: t ∧ row < g.rows ∧ c2 < g.cols
    · rw [if_pos hc3]
      rcases List.mem_cons.mp hc3.2.1 with hca | hct
      · by_cases hc1 : r2 = row - 1 ∧ c2 ∈ t ∧ row < g.rows ∧ c2 < g.cols
        · rw [if_pos hc1]
        · rw [if_neg hc1,
              if_pos ⟨hc3.1, hca, hc3.2.2.1, by rw [hca] at hc3; exact hc3.2.2.2⟩, hca]
      · rw [if_pos ⟨hc3.1, hct, hc3.2.2⟩]
    · rw [if_neg hc3]
      rw [if_neg (fun hc1 => hc3 ⟨hc1.1, List.mem_cons_of_mem a hc1.2.1, hc1.2.2⟩)]
      rw [if_neg (fun hc2 => hc3 ⟨hc2.1, by rw [hc2.2.1]; exact List.mem_cons_self a t,
            hc2.2.2.1, by rw [hc2.2.1]; exact hc2.2.2.2⟩)]

theorem copyRowUp_get (g : Grid) (row cols : Nat) (hrow : 1 ≤ row) (r2 c2 : Nat) :
    (copyRowUp g row cols).get r2 c2 =
      if r2 = row - 1 ∧ c2 < cols ∧ row < g.rows ∧ c2 < g.cols then g.get row c2
      else g.get r2 c2 := by
  have h := (copyRowUp_aux (List.range cols) g row hrow).2.2 r2 c2
  unfold copyRowUp
  rw [h]
  simp [List.mem_range]

theorem copyRowUp_rows (g : Grid) (row cols : Nat) (hrow : 1 ≤ row) :
    (copyRowUp g row cols).rows = g.rows :=
  (copyRowUp_aux (List.range cols) g row hrow).1

theorem copyRowUp_cols (g : Grid) (row cols : Nat) (hrow : 1 ≤ row) :
    (copyRowUp g row cols).cols = g.cols :=
  (copyRowUp_aux (List.range cols) g row hrow).2.1

/-- After the row-copying phase over rows 1..k, every row below k holds
the former content of the row beneath it (on the first `cols` columns),
and everything else is untouched. -/
theorem copyPhase_get (k : Nat) :
    ∀ (g : Grid) (cols : Nat), k < g.rows →
      (((List.range' 1 k).foldl (fun g row => copyRowUp g row cols) g).rows = g.rows ∧
       ((List.range' 1 k).foldl (fun g row => copyRowUp g row cols) g).cols = g.cols) ∧
      ∀ r2 c2, ((List.range' 1 k).foldl (fun g row => copyRowUp g row cols) g).get r2 c2 =
        if r2 < k ∧ c2 < cols ∧ c2 < g.cols then g.get (r2 + 1) c2
        else g.get r2 c2 := by
  induction k with
  | zero =>
    intro g cols _
    refine ⟨⟨rfl, rfl⟩, ?_⟩
    intro r2 c2
    rw [if_neg (by omega)]
    rfl
  | succ k ih =>
    intro g cols hk
    obtain ⟨⟨iha, ihb⟩, ihc⟩ := ih g cols (by omega)
    rw [List.range'_1_concat, List.foldl_append, List.foldl_cons, List.foldl_nil]
    have hk1 : (1 : Nat) ≤ 1 + k := by omega
    constructor
    · constructor
      · rw [copyRowUp_rows _ _ _ hk1, iha]
      · rw [copyRowUp_cols _ _ _ hk1, ihb]
    · intro r2 c2
      rw [copyRowUp_get _ _ _ hk1 r2 c2, iha, ihb]
      have hread : ((List.range' 1 k).foldl (fun g row => copyRowUp g row cols) g).get (1 + k) c2
          = g.get (1 + k) c2 := by
        rw [ihc (1 + k) c2, if_neg (by omega)]
      by_cases hc : r2 = 1 + k - 1 ∧ c2 < cols ∧ 1 + k < g.rows ∧ c2 < g.cols
      · rw [if_pos hc, hread, if_pos (by omega)]
        have : r2 + 1 = 1 + k := by omega
        rw [this]
      · rw [if_neg hc, ihc r2 c2]
        by_cases hc2 : r2 < k ∧ c2 < cols ∧ c2 < g.cols
        · rw [if_pos hc2, if_pos (by omega)]
        · rw [if_neg hc2, if_neg (by
            intro hx
            have hr2k : r2 = k ∨ r2 < k := by omega
            rcases hr2k with hr2k | hr2k
            · exact hc ⟨by omega, hx.2.1, by omega, hx.2.2⟩
            · exact hc2 ⟨hr2k, hx.2⟩)]

/-- After the clearing phase, row `row` holds default Cells on the first
`cols` columns and everything else is untouched. -/
theorem clearRow_aux (l : List Nat) :
    ∀ (g : Grid) (row : Nat),
      ((l.foldl (fun g col => g.set row col Cell.default) g).rows = g.rows ∧
       (l.foldl (fun g col => g.set row col Cell.default) g).cols = g.cols) ∧
      ∀ r2 c2, (l.foldl (fun g col => g.set row col Cell.default) g).get r2 c2 =
        if r2 = row ∧ c2 ∈ l ∧ row < g.rows ∧ c2 < g.cols then some Cell.default
        else g.get r2 c2 := by
  induction l with
  | nil =>
    intro g row
    refine ⟨⟨rfl, rfl⟩, ?_⟩
    intro r2 c2
    rw [if_neg (by simp)]
    rfl
  | cons a t ih =>
    intro g row
    obtain ⟨⟨iha, ihb⟩, ihc⟩ := ih (g.set row a Cell.default) row
    rw [List.foldl_cons]
    refine ⟨⟨by rw [iha, Grid.rows_set], by rw [ihb, Grid.cols_set]⟩, ?_⟩
    intro r2 c2
    rw [ihc r2 c2, Grid.rows_set, Grid.cols_set, Grid.get_set]
    by_cases hc3 : r2 = row ∧ c2 ∈ a :: t ∧ row < g.rows ∧ c2 < g.cols
    · rw [if_pos hc3]
      rcases List.mem_cons.mp hc3.2.1 with hca | hct
      · by_cases hc1 : r2 = row ∧ c2 ∈ t ∧ row < g.rows ∧ c2 < g.cols
        · rw [if_pos hc1]
        · rw [if_neg hc1,
              if_pos ⟨hc3.1, hca, hc3.2.2.1, by rw [hca] at hc3; exact hc3.2.2.2⟩]
      · rw [if_pos ⟨hc3.1, hct, hc3.2.2⟩]
    · rw [if_neg hc3]
      rw [if_neg (fun hc1 => hc3 ⟨hc1.1, List.mem_cons_of_mem a hc1.2.1, hc1.2.2⟩)]
      rw [if_neg (fun hc2 => hc3 ⟨hc2.1, by rw [hc2.2.1]; exact List.mem_cons_self a t,
            hc2.2.2.1, by rw [hc2.2.1]; exact hc2.2.2.2⟩)]

/-- The content contract of `scroll_up`: every row moves up by one, the
last row is cleared to default Cells. -/
theorem scroll_up_get (g : Grid) (rows cols : Nat)
    (hr : 1 ≤ rows) (hgr : g.rows = rows) (hgc : g.cols = cols) :
    (∀ r2 c2, 1 ≤ r2 → r2 < rows → c2 < cols →
      (scroll_up g rows cols).get (r2 - 1) c2 = g.get r2 c2) ∧
    (∀ c2, c2 < cols →
      (scroll_up g rows cols).get (rows - 1) c2 = some Cell.default) := by
  have hk : rows - 1 < g.rows := by omega
  obtain ⟨⟨hpa, hpb⟩, hpc⟩ := copyPhase_get (rows - 1) g cols hk
  have hclear := clearRow_aux (List.range cols)
      ((List.range' 1 (rows - 1)).foldl (fun g row => copyRowUp g row cols) g) (rows - 1)
  obtain ⟨⟨hca, hcb⟩, hcc⟩ := hclear
  constructor
  · intro r2 c2 h1 h2 h3
    show (clearRow _ (rows - 1) cols).get (r2 - 1) c2 = g.get r2 c2
    unfold clearRow
    rw [hcc (r2 - 1) c2, if_neg (by
      intro hx
      omega)]
    rw [hpc (r2 - 1) c2, if_pos ⟨by omega, h3, by omega⟩]
    have : r2 - 1 + 1 = r2 := by omega
    rw [this]
  · intro c2 h3
    show (clearRow _ (rows - 1) cols).get (rows - 1) c2 = some Cell.default
    unfold clearRow
    rw [hcc (rows - 1) c2,
        if_pos ⟨rfl, by simp [List.mem_range, h3], by omega, by omega⟩]

/-- Claim C4: processing a newline in Normal state with the cursor on the
last row scrolls: every row r in [1, rows) moves into row r-1 across all
columns, the last row becomes default Cells, and the cursor stays on the
last row. -/
theorem newline_scrolls (st : TermState) (g : Grid) (rows cols : Nat)
    (hr : 1 ≤ rows) (hes : st.escape_state = EscapeState.Normal)
    (hcur : st.cursor_row = rows - 1)
    (hgr : g.rows = rows) (hgc : g.cols = cols) :
    (∀ r2 c2, 1 ≤ r2 → r2 < rows → c2 < cols →
      (process_byte st g 10 rows cols).2.get (r2 - 1) c2 = g.get r2 c2) ∧
    (∀ c2, c2 < cols →
      (process_byte st g 10 rows cols).2.get (rows - 1) c2 = some Cell.default) ∧
    (process_byte st g 10 rows cols).1.cursor_row = rows - 1 := by
  have hpb : process_byte st g 10 rows cols
      = ({ st with cursor_row := rows - 1 }, scroll_up g rows cols) := by
    unfold process_byte
    rw [hes]
    show (if (10 : Nat) = 27 then _ else _) = _
    rw [if_neg (by decide), if_pos rfl, hcur]
    rw [if_pos (by omega : rows - 1 + 1 ≥ rows)]
  rw [hpb]
  obtain ⟨hbody, hlast⟩ := scroll_up_get g rows cols hr hgr hgc
  exact ⟨hbody, hlast, rfl⟩

/-- Witness for C4: the 3-row instance of the claim, on a 3×2 grid marked
with 'x' at (1,0) and 'y' at (2,1): after the newline, 'x' sits at (0,0),
'y' at (1,1), row 2 is default, and the cursor stays at row 2. -/
theorem newline_scrolls_witness :
    (process_byte { initState with cursor_row := 2 }
        (((Grid.new 3 2).set 1 0 { Cell.default with c := 'x' }).set 2 1
          { Cell.default with c := 'y' }) 10 3 2).2.get 0 0
      = some { Cell.default with c := 'x' } ∧
    (process_byte { initState with cursor_row := 2 }
        (((Grid.new 3 2).set 1 0 { Cell.default with c := 'x' }).set 2 1
          { Cell.default with c := 'y' }) 10 3 2).2.get 1 1
      = some { Cell.default with c := 'y' } ∧
    (process_byte { initState with cursor_row := 2 }
        (((Grid.new 3 2).set 1 0 { Cell.default with c := 'x' }).set 2 1
          { Cell.default with c := 'y' }) 10 3 2).2.get 2 0
      = some Cell.default ∧
    (process_byte { initState with cursor_row := 2 }
        (((Grid.new 3 2).set 1 0 { Cell.default with c := 'x' }).set 2 1
          { Cell.default with c := 'y' }) 10 3 2).1.cursor_row = 2 := by
  have h := newline_scrolls { initState with cursor_row := 2 }
      (((Grid.new 3 2).set 1 0 { Cell.default with c := 'x' }).set 2 1
        { Cell.default with c := 'y' }) 3 2 (by decide) rfl rfl rfl rfl
  refine ⟨?_, ?_, h.2.1 0 (by decide), h.2.2⟩
  · have h1 := h.1 1 0 (by decide) (by decide) (by decide)
    rw [h1]
    decide
  · have h2 := h.1 2 1 (by decide) (by decide) (by decide)
    rw [h2]
    decide

end DioxusTerminal
